import Mathlib

/-!
# Verification of the Real-Time-Voice-Cloning synthesizer (PyTorch port)

Shallow embedding of three source files of the repository:

* `synthesizer/hparams.py` — the `HParams` container and its `parse` method;
* `synthesizer_pt/inference.py` — the `Synthesizer` class (`__init__`,
  `is_loaded`, `load`, `synthesize_spectrograms`);
* `synthesizer_pt/train.py` — the `train` loop (schedule selection, per-batch
  step, checkpointing, evaluation gates) and `eval_model`.

Python strings handled character by character are modelled as `List Char`;
machine reals that the claims never compute with (learning rates, loss values)
are modelled as `ℚ`; fallible Python code (exceptions) is modelled with
`Except`.  Each definition mirrors the Python statement for statement; a
comment with the Python line accompanies the non-obvious ones.
-/

namespace RTVC

/-! ## `synthesizer/hparams.py` — the `HParams` class -/

namespace HParamsPy

/-- Result of `ast.literal_eval` on a raw token.  The claims depend only on
*which* raw token of the override string is evaluated and stored, never on the
evaluated Python value itself, so the evaluation is kept as a constructor tag
of the raw token. -/
inductive PyVal where
  | lit : List Char → PyVal
deriving DecidableEq

/-- Python's `str.split(sep)` for a one-character separator: `"a,b"` splits to
`["a", "b"]`, `""` splits to `[""]`, and separators at the ends produce empty
groups, exactly as in Python. -/
def pySplit (sep : Char) : List Char → List (List Char)
  | [] => [[]]
  | c :: rest =>
    match pySplit sep rest with
    | [] => [[]]
    | g :: gs => if c = sep then [] :: g :: gs else (c :: g) :: gs

/-- Python's `list.index(x)`: the index of the first occurrence of `x`.
(Python raises `ValueError` when `x` is absent; the `parse` loop only calls it
on members, where the result below agrees with Python.) -/
def pyIndex (x : List Char) : List (List Char) → Nat
  | [] => 0
  | y :: ys => if y = x then 0 else pyIndex x ys + 1

/-- The attribute dictionary `self.__dict__` of an `HParams` object. -/
abbrev Dict := List Char → Option PyVal

/-- Python `self.__dict__[k] = v`. -/
def dictSet (d : Dict) (k : List Char) (v : PyVal) : Dict :=
  fun q => if q = k then some v else d q

/-- The keys column of `zip(*overrides)`: first element of each pair. -/
def overrideKeys (overrides : List (List (List Char))) : List (List Char) :=
  overrides.map (fun kv => kv.getD 0 [])

/-- The values column of `zip(*overrides)`: second element of each pair. -/
def overrideValues (overrides : List (List (List Char))) : List (List Char) :=
  overrides.map (fun kv => kv.getD 1 [])

/-- The `keys` tuple as computed by `parse` on `string`:
`overrides = [s.split("=") for s in string.split(",")]; keys, _ = zip(*overrides)`. -/
def parseKeys (string : List Char) : List (List Char) :=
  overrideKeys ((pySplit ',' string).map (pySplit '='))

/-- The `values` tuple as computed by `parse` on `string`. -/
def parseValues (string : List Char) : List (List Char) :=
  overrideValues ((pySplit ',' string).map (pySplit '='))

/-- Method `HParams.parse(self, string)` from `synthesizer/hparams.py`:

    if len(string) > 0:
        overrides = [s.split("=") for s in string.split(",")]
        keys, values = zip(*overrides)
        for k in keys:
            self.__dict__[k] = ast.literal_eval(values[keys.index(k)])
    return self

The Python method mutates `self.__dict__` in place and returns `self`; the
embedding returns the dictionary of the returned object, which is therefore
also the post-call dictionary of `self`.  (`keys`/`values` are read off with
`getD 0` / `getD 1`, which agrees with `zip(*overrides)` on every override
string the method accepts, i.e. whenever each segment split yields at least a
key and a value.) -/
def parse (d : Dict) (string : List Char) : Dict :=
  if 0 < string.length then
    let keys := parseKeys string
    let values := parseValues string
    keys.foldl
      (fun d k => dictSet d k (PyVal.lit (values.getD (pyIndex k keys) [])))
      d
  else d

end HParamsPy

/-! ## `synthesizer_pt/inference.py` — the `Synthesizer` class -/

namespace Inference

/-- Errors raised by the Python interpreter or by the code itself. -/
inductive PyErr where
  | attributeError : String → PyErr
  | nameError : String → PyErr
  | notImplementedError : PyErr
  | exn : String → PyErr
deriving DecidableEq

/-- The Tacotron model held by a `Synthesizer`.  Its internals are irrelevant
to the claims; only the fact that `__init__` produces an actual object (never
`None`) matters, so it is kept abstract as its training-step counter. -/
structure Tacotron where
  step : Nat
deriving DecidableEq

/-- A speaker embedding.  Its contents are never inspected by the code paths
the claims exercise. -/
structure Embedding where
  dim : Nat
deriving DecidableEq

/-- A mel spectrogram (never actually produced: `synthesize_spectrograms`
raises before reaching its loop). -/
structure MelSpec where
  frames : Nat
deriving DecidableEq

/-- The attribute state of a `Synthesizer` object.  `__init__` assigns exactly
`self.verbose`, `self.model_fpath` and `self._model`; the field `_low_mem` is
`none` when the attribute was never assigned, in which case reading it raises
`AttributeError` (the constructor receives a `low_mem` argument but stores it
nowhere).  `_model` is always assigned by `__init__`, and `is_loaded` compares
it against `None`, modelled by the inner `Option`. -/
structure SynObj where
  verbose : Bool
  model_fpath : String
  _model : Option Tacotron
  _low_mem : Option Bool
deriving DecidableEq

/-- Constructor `Synthesizer.__init__(self, model_fpath, verbose=True, low_mem=False)`:
instantiates the Tacotron model and loads its weights eagerly (`self._model =
Tacotron(...)`, `self._model.load(model_fpath)`).  The model produced by that
load is the `loaded` argument (file input becomes a parameter).  Note that the
`low_mem` argument is dropped: no statement of the constructor assigns
`self._low_mem`. -/
def synInit (model_fpath : String) (verbose low_mem : Bool) (loaded : Tacotron) :
    SynObj :=
  { verbose := verbose
    model_fpath := model_fpath
    _model := some loaded
    _low_mem := none }

/-- Method `Synthesizer.is_loaded(self)`: `return self._model is not None`. -/
def is_loaded (s : SynObj) : Bool :=
  s._model.isSome

/-- Method `Synthesizer.load(self)`: raises on `self._low_mem` when the attribute was
never assigned; raises `Exception` in low-memory mode; otherwise re-creates
the model and then reads `self.model_path` — an attribute that no method ever
assigns (`__init__` stores `model_fpath`), hence `AttributeError`.  (The
Tacotron re-instantiation preceding that read is dropped, since the method
fails regardless before returning.) -/
def synLoad (s : SynObj) : Except PyErr SynObj :=
  match s._low_mem with
  | none => .error (.attributeError "_low_mem")
  | some true =>
      .error (.exn "Cannot load the synthesizer permanently in low mem mode")
  | some false => .error (.attributeError "model_path")

/-- The lazy-load branch of `synthesize_spectrograms`:

    if not self.is_loaded():
        self.load()

Returns the (possibly updated) object together with whether `load` was
invoked. -/
def maybeLoad (s : SynObj) : Except PyErr (SynObj × Bool) :=
  if !(is_loaded s) then
    match synLoad s with
    | .error e => .error e
    | .ok s2 => .ok (s2, true)
  else
    .ok (s, false)

/-- Method `Synthesizer.synthesize_spectrograms(self, texts, embeddings,
return_alignments=False)`.  The body first reads `self._low_mem`, an attribute
`__init__` never assigns, so every call on a constructed object raises
`AttributeError`.  Were `_low_mem` set to `True` the body raises
`NotImplementedError`; were it `False`, after the lazy-load branch the call
`simple_table([('Tacotron', ...), ('r', tts_model.r)])` reads the global name
`tts_model`, which is defined nowhere in the module, hence `NameError` — the
generation loop and the `return` statement are unreachable. -/
def synthesize_spectrograms (s : SynObj) (texts : List String)
    (embeddings : List Embedding) (return_alignments : Bool) :
    Except PyErr (List MelSpec × Option (List (List Nat))) :=
  match s._low_mem with
  | none => .error (.attributeError "_low_mem")
  | some true => .error .notImplementedError
  | some false =>
      match maybeLoad s with
      | .error e => .error e
      | .ok _ => .error (.nameError "tts_model")

end Inference

/-! ## `synthesizer_pt/train.py` — the training loop -/

namespace Train

/-- One entry `(r, lr, max_step, batch_size)` of `hp.tts_schedule`. -/
structure Session where
  r : Nat
  lr : ℚ
  max_step : Nat
  batch_size : Nat
deriving DecidableEq

/-- One minibatch yielded by the `DataLoader`, as the per-batch code observes
it: `size` is `len(x)`; `nanGrad` says whether `clip_grad_norm_` reports a NaN
total norm for this batch; `evalErr` is the exception `eval_model` would raise
for this batch (diagnostic file output), `none` when the export succeeds. -/
structure Batch where
  size : Nat
  nanGrad : Bool
  evalErr : Option String
deriving DecidableEq

/-- The configuration a training run closes over: the caller's arguments of
`train(run_id, syn_dir, models_dir, save_every, backup_every, force_restart,
train_steps)` together with the hyperparameters the loop reads. -/
structure Config where
  run_id : String
  weights_parent : String
  save_every : Nat
  backup_every : Nat
  train_steps : Nat
  tts_eval_interval : Int
  tts_eval_num_samples : Nat
  tts_clip_grad_norm : Option ℚ
deriving DecidableEq

/-- The mutable state the claims observe.  `step` is the model's global step
buffer (modelled from the spec: the Tacotron model, whose module is not part
of the three source files, increments its persisted step counter once per
forward pass, which is what `model.get_step()` returns).  `optSteps` counts
calls to `optimizer.step()` — the parameter update; two states with different
`optSteps` have had different parameter updates applied.  `saves` lists, in
order, the file paths written by `model.save`; `logs` lists the messages
printed. -/
structure TrainState where
  step : Nat
  r : Nat
  lr : ℚ
  optSteps : Nat
  saves : List String
  logs : List String
deriving DecidableEq

/-- Little-endian decimal digits of `n` as characters, computed with explicit
fuel so that the definition reduces inside the kernel. -/
def pyDecimalAux : Nat → Nat → List Char
  | 0, _ => []
  | fuel + 1, n =>
      if n = 0 then []
      else Char.ofNat (48 + n % 10) :: pyDecimalAux fuel (n / 10)

/-- Decimal rendering of a `Nat`, as Python's `str`/f-string formatting of a
non-negative integer produces it (most significant digit first). -/
def pyDecimal (n : Nat) : List Char :=
  if n = 0 then ['0'] else (pyDecimalAux n n).reverse

/-- The backup checkpoint path
`f'{str(weights_fpath.parent)}/{run_id}_{k}k.pt'` (train.py line 218). -/
def backupFpath (cfg : Config) (k : Nat) : String :=
  cfg.weights_parent ++ "/" ++ cfg.run_id ++ "_" ++ ⟨pyDecimal k⟩ ++ "k.pt"

/-- The rolling checkpoint path `models_dir/run_id/run_id.pt`
(`weights_fpath`, train.py line 119). -/
def latestFpath (cfg : Config) : String :=
  cfg.weights_parent ++ "/" ++ cfg.run_id ++ ".pt"

/-- The gate of the backup save (train.py line 217):
`backup_every != 0 and step % backup_every == 0`. -/
def backupGate (backup_every step : Nat) : Bool :=
  backup_every != 0 && step % backup_every == 0

/-- The gate of the rolling save (train.py line 221):
`save_every != 0 and step % save_every == 0`. -/
def saveGate (save_every step : Nat) : Bool :=
  save_every != 0 && step % save_every == 0

/-- The per-step evaluation gate (train.py line 226):
`hp.tts_eval_interval > 0 and step % hp.tts_eval_interval == 0`. -/
def evalStepGate (interval : Int) (step : Nat) : Bool :=
  0 < interval && step % interval.toNat == 0

/-- The epoch-boundary evaluation gate (train.py line 244):
`hp.tts_eval_interval == 0`. -/
def evalEpochGate (interval : Int) : Bool :=
  interval == 0

/-- The `eval_model` calls made for one batch (train.py lines 227–239 and
245–257): `for sample_idx in range(hp.tts_eval_num_samples): if sample_idx + 1
<= len(x): eval_model(...)`.  `eval_model` writes the attention plot, the
predicted mel, the Griffin-Lim waveform and the spectrogram plot; when any of
that I/O raises, the exception propagates out of `eval_model` — neither
`eval_model` nor its call sites contain a `try`/`except`. -/
def runEvals (num_samples : Nat) (b : Batch) : Except String Unit :=
  if 0 < num_samples && 0 < b.size then
    match b.evalErr with
    | some e => .error e
    | none => .ok ()
  else .ok ()

/-- One iteration of the inner minibatch loop (train.py lines 181–242):
forward pass (the model's step buffer advances by one), backward pass,
gradient clipping — when `hp.tts_clip_grad_norm is not None` a NaN total norm
only prints `'grad_norm was NaN!'` — then `optimizer.step()` unconditionally,
then the step-tagged backup save, the rolling save, and the gated
evaluation. -/
def trainStep (cfg : Config) (st : TrainState) (b : Batch) :
    Except String TrainState :=
  let st1 : TrainState := { st with step := st.step + 1 }
  let st2 : TrainState :=
    match cfg.tts_clip_grad_norm with
    | some _ =>
        if b.nanGrad then { st1 with logs := st1.logs ++ ["grad_norm was NaN!"] }
        else st1
    | none => st1
  let st3 : TrainState := { st2 with optSteps := st2.optSteps + 1 }
  let step := st3.step
  let k := step / 1000
  let st4 : TrainState :=
    if backupGate cfg.backup_every step then
      { st3 with saves := st3.saves ++ [backupFpath cfg k] }
    else st3
  let st5 : TrainState :=
    if saveGate cfg.save_every step then
      { st4 with saves := st4.saves ++ [latestFpath cfg] }
    else st4
  if evalStepGate cfg.tts_eval_interval step then
    match runEvals cfg.tts_eval_num_samples b with
    | .error e => .error e
    | .ok () => .ok st5
  else .ok st5

/-- The minibatch loop of one epoch (train.py line 181): an uncaught exception
in an iteration propagates, abandoning the remaining batches. -/
def runEpoch (cfg : Config) (st : TrainState) : List Batch →
    Except String TrainState
  | [] => .ok st
  | b :: bs =>
      match trainStep cfg st b with
      | .error e => .error e
      | .ok st2 => runEpoch cfg st2 bs

/-- One epoch followed by the epoch-boundary evaluation (train.py lines
244–257), which reuses the loop variables of the last minibatch. -/
def runEpochWithEval (cfg : Config) (st : TrainState) (bs : List Batch) :
    Except String TrainState :=
  match runEpoch cfg st bs with
  | .error e => .error e
  | .ok st2 =>
      if evalEpochGate cfg.tts_eval_interval then
        match bs.getLast? with
        | some b =>
            match runEvals cfg.tts_eval_num_samples b with
            | .error e => .error e
            | .ok () => .ok st2
        | none => .ok st2
      else .ok st2

/-- The epoch loop `for epoch in range(1, epochs+1)` (train.py line 176),
running `count` epochs; `data e` is the batch sequence the shuffling
`DataLoader` yields in the `e`-th remaining epoch. -/
def runEpochs (cfg : Config) (st : TrainState) (data : Nat → List Batch) :
    Nat → Except String TrainState
  | 0 => .ok st
  | n + 1 =>
      match runEpochWithEval cfg st (data 0) with
      | .error e => .error e
      | .ok st2 => runEpochs cfg st2 (fun e => data (e + 1)) n

/-- The body of one scheduled session (train.py lines 154–258): set `model.r
= r`, set every optimizer parameter group's `lr`, build the loader with the
session's `batch_size`, compute `epochs = train_steps // total_iters + 1`
(where `total_iters = len(dataset)`), and run that many epochs.  No statement
of the session body consults `max_step`; `training_steps = max_step -
current_step` (line 143) only feeds the banner table. -/
def runSession (cfg : Config) (st : TrainState) (sess : Session)
    (datasetLen : Nat) (data : Nat → List Batch) : Except String TrainState :=
  let st1 : TrainState := { st with r := sess.r, lr := sess.lr }
  let epochs := cfg.train_steps / datasetLen + 1
  runEpochs cfg st1 data epochs

/-- The session-selection head of the schedule loop (train.py lines 136–153):

    for i, session in enumerate(hp.tts_schedule):
        current_step = model.get_step()
        r, lr, max_step, batch_size = session
        if current_step >= max_step:
            if i == len(hp.tts_schedule)-1:
                break
            else:
                continue
        ...

`none` means the loop breaks (or exhausts the list) without activating an
entry: training terminates. -/
def selectSession (current_step : Nat) : List Session → Option Session
  | [] => none
  | s :: rest =>
      if s.max_step ≤ current_step then
        if rest.isEmpty then none else selectSession current_step rest
      else some s

/-- The pre-training batch-size check (train.py lines 87–91), run before the
model is even instantiated:

    for session in hp.tts_schedule:
        _, _, _, batch_size = session
        if batch_size % torch.cuda.device_count() != 0:
            raise ValueError('`batch_size` must be evenly divisible by n_gpus!')
-/
def checkBatchSizes (schedule : List Session) (n_gpus : Nat) :
    Except String Unit :=
  match schedule with
  | [] => .ok ()
  | s :: rest =>
      if s.batch_size % n_gpus != 0 then
        .error "`batch_size` must be evenly divisible by n_gpus!"
      else checkBatchSizes rest n_gpus

/-- The prefix of `train` relevant to the divisibility check (train.py lines
84–92): the check runs exactly when CUDA is available, over every schedule
entry, before any training state exists. -/
def trainPreamble (cudaAvailable : Bool) (n_gpus : Nat)
    (schedule : List Session) : Except String Unit :=
  if cudaAvailable then checkBatchSizes schedule n_gpus else .ok ()

/-- The full schedule loop (train.py lines 136–258), combining the
session-selection head of `selectSession` with the session body of
`runSession`.  `data i e` is the batch sequence of epoch `e` of the `i`-th
remaining schedule entry. -/
def runSchedule (cfg : Config) (datasetLen : Nat) :
    TrainState → List Session → (Nat → Nat → List Batch) →
      Except String TrainState
  | st, [], _ => .ok st
  | st, s :: rest, data =>
      if s.max_step ≤ st.step then
        if rest.isEmpty then .ok st
        else runSchedule cfg datasetLen st rest (fun i => data (i + 1))
      else
        match runSession cfg st s datasetLen (data 0) with
        | .error e => .error e
        | .ok st2 => runSchedule cfg datasetLen st2 rest (fun i => data (i + 1))

/-- Function `train` (train.py lines 36–258), reduced to the behaviour the claims
observe: the pre-training batch-size check followed by the schedule loop.
The bookkeeping before the check (directory creation, metadata file) touches
no training state. -/
def train (cudaAvailable : Bool) (n_gpus : Nat) (schedule : List Session)
    (cfg : Config) (st : TrainState) (datasetLen : Nat)
    (data : Nat → Nat → List Batch) : Except String TrainState :=
  match trainPreamble cudaAvailable n_gpus schedule with
  | .error e => .error e
  | .ok () => runSchedule cfg datasetLen st schedule data

end Train

/-! ## Theorems -/

namespace HParamsPy

/-- The assignment loop of `parse`: after `for k in keys: self.__dict__[k] =
f(k)`, a key holds `f k` when it occurs in `keys` and its old binding
otherwise.  Every iteration for a key writes the same value, since the value
written depends only on the key (through `keys.index(k)`). -/
theorem foldl_dictSet_apply (f : List Char → PyVal) :
    ∀ (ks : List (List Char)) (d : Dict) (k : List Char),
      ks.foldl (fun d k => dictSet d k (f k)) d k
        = if k ∈ ks then some (f k) else d k := by
  intro ks
  induction ks with
  | nil => intro d k; simp
  | cons a t ih =>
      intro d k
      rw [List.foldl_cons, ih]
      by_cases ht : k ∈ t
      · simp [ht]
      · by_cases hk : k = a
        · simp [ht, hk, dictSet]
        · simp [ht, hk, dictSet]

/-- Claim C9: on any accepted override string in which the key `k` occurs both
at position `i` (its first occurrence) and at a later position `j` with a
different raw value, the dictionary of the object returned by `parse` binds
`k` to the literal-evaluated value of occurrence `i`, not that of occurrence
`j`.  (`parse` returns `self`, so the returned dictionary is the post-call
dictionary of the object the method was called on.) -/
theorem parse_stores_first_occurrence
    (d : Dict) (string k : List Char) (i j : Nat)
    (hlen : 0 < string.length)
    (hij : i < j) (hj : j < (parseKeys string).length)
    (hfirst : pyIndex k (parseKeys string) = i)
    (hkj : (parseKeys string).getD j [] = k)
    (hv : (parseValues string).getD i [] ≠ (parseValues string).getD j []) :
    parse d string k = some (PyVal.lit ((parseValues string).getD i []))
      ∧ parse d string k ≠ some (PyVal.lit ((parseValues string).getD j [])) := by
  have hmem : k ∈ parseKeys string := by
    rw [← hkj, List.getD_eq_getElem (parseKeys string) [] hj]
    exact List.getElem_mem hj
  have hval : parse d string k
      = some (PyVal.lit ((parseValues string).getD i [])) := by
    show (if 0 < string.length then
        (parseKeys string).foldl
          (fun d k =>
            dictSet d k
              (PyVal.lit ((parseValues string).getD
                (pyIndex k (parseKeys string)) []))) d
      else d) k = _
    rw [if_pos hlen,
      foldl_dictSet_apply
        (fun k =>
          PyVal.lit ((parseValues string).getD
            (pyIndex k (parseKeys string)) [])),
      if_pos hmem, hfirst]
  refine ⟨hval, ?_⟩
  rw [hval]
  intro h
  exact hv (PyVal.lit.inj (Option.some.inj h))

/-- Witness for claim C9 at the override string `"a=1,b=2,a=3"`: the key `a`
occurs first with raw value `1` and last with raw value `3`, and the returned
dictionary binds `a` to the evaluation of `1`. -/
theorem parse_stores_first_occurrence_example :
    parse (fun _ => none) ['a', '=', '1', ',', 'b', '=', '2', ',', 'a', '=', '3'] ['a']
        = some (PyVal.lit
            ((parseValues
                ['a', '=', '1', ',', 'b', '=', '2', ',', 'a', '=', '3']).getD 0 []))
      ∧ parse (fun _ => none) ['a', '=', '1', ',', 'b', '=', '2', ',', 'a', '=', '3'] ['a']
        ≠ some (PyVal.lit
            ((parseValues
                ['a', '=', '1', ',', 'b', '=', '2', ',', 'a', '=', '3']).getD 2 [])) :=
  parse_stores_first_occurrence (fun _ => none)
    ['a', '=', '1', ',', 'b', '=', '2', ',', 'a', '=', '3'] ['a'] 0 2
    (by decide) (by decide) (by decide) (by decide) (by decide) (by decide)

end HParamsPy

namespace Inference

/-- Claim C1 (code bug): `synthesize_spectrograms` never returns the promised
list of spectrograms.  Its first statement reads `self._low_mem`, an attribute
`__init__` never assigns (the constructor's `low_mem` argument is dropped), so
every call on every constructed `Synthesizer` raises `AttributeError` — for
any texts, any embeddings and either value of `return_alignments`.  (Even with
`_low_mem` present and false, the body would raise `NameError` at the
undefined global `tts_model` before producing any spectrogram.) -/
theorem synthesize_spectrograms_always_raises
    (model_fpath : String) (verbose low_mem : Bool) (loaded : Tacotron)
    (texts : List String) (embeddings : List Embedding)
    (return_alignments : Bool) :
    synthesize_spectrograms (synInit model_fpath verbose low_mem loaded)
        texts embeddings return_alignments
      = .error (.attributeError "_low_mem") := rfl

/-- Claim C10: immediately after `__init__`, which instantiates the Tacotron
model and loads its weights eagerly, `is_loaded()` is true (the `_model`
attribute is an object, not `None`), and hence the lazy-load branch of
`synthesize_spectrograms` (`if not self.is_loaded(): self.load()`) does not
invoke `load()`. -/
theorem is_loaded_after_init
    (model_fpath : String) (verbose low_mem : Bool) (loaded : Tacotron) :
    is_loaded (synInit model_fpath verbose low_mem loaded) = true
      ∧ maybeLoad (synInit model_fpath verbose low_mem loaded)
          = .ok (synInit model_fpath verbose low_mem loaded, false) :=
  ⟨rfl, rfl⟩

end Inference

namespace Train

/-- The selection head of the schedule loop computes exactly "first entry
whose `max_step` exceeds the current step": the `continue`/`break` distinction
at the last entry does not change the result. -/
theorem selectSession_eq_find (current_step : Nat) :
    ∀ schedule : List Session,
      selectSession current_step schedule
        = schedule.find? (fun s => decide (current_step < s.max_step)) := by
  intro schedule
  induction schedule with
  | nil => rfl
  | cons s rest ih =>
      by_cases h : s.max_step ≤ current_step
      · rw [List.find?_cons_of_neg _ (by simpa using h)]
        cases rest with
        | nil => simp [selectSession, h]
        | cons b t => simpa [selectSession, h] using ih
      · rw [List.find?_cons_of_pos _ (by simpa using Nat.lt_of_not_le h)]
        simp [selectSession, Nat.lt_of_not_le h, Nat.not_le_of_lt]

/-- With strictly increasing thresholds, every entry's threshold is bounded by
the last entry's. -/
theorem max_step_le_getLast :
    ∀ (l : List Session),
      l.Chain' (fun a b => a.max_step < b.max_step) →
      ∀ (h : l ≠ []) (x : Session), x ∈ l →
        x.max_step ≤ (l.getLast h).max_step := by
  intro l
  induction l with
  | nil => intro _ h; exact absurd rfl h
  | cons a rest ih =>
      intro hchain h x hx
      cases rest with
      | nil =>
          have : x = a := by simpa using hx
          simp [this, List.getLast]
      | cons b t =>
          have hne : b :: t ≠ [] := by simp
          rw [List.getLast_cons hne]
          rcases List.mem_cons.mp hx with hxa | hxr
          · have hab : a.max_step < b.max_step := (List.chain'_cons.mp hchain).1
            have hb : b.max_step ≤ ((b :: t).getLast hne).max_step :=
              ih (List.chain'_cons.mp hchain).2 hne b (by simp)
            exact hxa ▸ le_of_lt (lt_of_lt_of_le hab hb)
          · exact ih (List.chain'_cons.mp hchain).2 hne x hxr

/-- If every entry's threshold is already reached, the loop activates nothing:
it breaks at the last entry (or the list is empty). -/
theorem selectSession_none_of_all_reached (current_step : Nat) :
    ∀ schedule : List Session,
      (∀ s ∈ schedule, s.max_step ≤ current_step) →
      selectSession current_step schedule = none := by
  intro schedule
  induction schedule with
  | nil => intro _; rfl
  | cons s rest ih =>
      intro hall
      have hs : s.max_step ≤ current_step := hall s (by simp)
      cases rest with
      | nil => simp [selectSession, hs]
      | cons b t =>
          have := ih (fun x hx => hall x (List.mem_cons_of_mem s hx))
          simpa [selectSession, hs] using this

/-- Claim C4: for a schedule with strictly increasing thresholds and any
persisted step value, the session-selection head resolves the first entry in
order whose `max_step` exceeds the current global step (entries whose
threshold is reached are skipped), and when the last entry's threshold is
already reached it resolves nothing — training terminates. -/
theorem selectSession_first_exceeding (schedule : List Session)
    (current_step : Nat)
    (hinc : schedule.Chain' (fun a b => a.max_step < b.max_step)) :
    selectSession current_step schedule
        = schedule.find? (fun s => decide (current_step < s.max_step))
      ∧ ∀ (h : schedule ≠ []),
          (schedule.getLast h).max_step ≤ current_step →
            selectSession current_step schedule = none := by
  refine ⟨selectSession_eq_find current_step schedule, ?_⟩
  intro h hlast
  exact selectSession_none_of_all_reached current_step schedule
    (fun x hx => le_trans (max_step_le_getLast schedule hinc h x hx) hlast)

/-- Witness for claim C4, the progressive-schedule example of the spec:
schedule `[(7, lr1, 100, 4), (5, lr2, 200, 4)]` at `current_step = 150`
resolves the second entry `(r = 5)`, and that entry is indeed the first whose
threshold exceeds 150. -/
theorem selectSession_first_exceeding_example :
    (selectSession 150
          [⟨7, 1 / 1000, 100, 4⟩, ⟨5, 3 / 10000, 200, 4⟩]
        = List.find? (fun s => decide (150 < s.max_step))
            [⟨7, 1 / 1000, 100, 4⟩, ⟨5, 3 / 10000, 200, 4⟩]
      ∧ ∀ (h : ([⟨7, 1 / 1000, 100, 4⟩, ⟨5, 3 / 10000, 200, 4⟩] :
            List Session) ≠ []),
          (([⟨7, 1 / 1000, 100, 4⟩,
              ⟨5, 3 / 10000, 200, 4⟩] : List Session).getLast h).max_step ≤ 150 →
            selectSession 150
                [⟨7, 1 / 1000, 100, 4⟩, ⟨5, 3 / 10000, 200, 4⟩] = none)
      ∧ selectSession 150 [⟨7, 1 / 1000, 100, 4⟩, ⟨5, 3 / 10000, 200, 4⟩]
          = some ⟨5, 3 / 10000, 200, 4⟩ :=
  ⟨selectSession_first_exceeding
      [⟨7, 1 / 1000, 100, 4⟩, ⟨5, 3 / 10000, 200, 4⟩] 150
      (List.chain'_pair.mpr (by decide)),
    rfl⟩

/-- The pre-training check passes exactly when every schedule entry's batch
size is divisible by the device count. -/
theorem checkBatchSizes_ok_iff (n_gpus : Nat) :
    ∀ schedule : List Session,
      checkBatchSizes schedule n_gpus = .ok ()
        ↔ ∀ s ∈ schedule, s.batch_size % n_gpus = 0 := by
  intro schedule
  induction schedule with
  | nil => simp [checkBatchSizes]
  | cons s rest ih =>
      by_cases h : s.batch_size % n_gpus = 0
      · simp [checkBatchSizes, h, ih]
      · simp [checkBatchSizes, h]

/-- When some entry fails the divisibility test, the check raises the
`ValueError`. -/
theorem checkBatchSizes_error (n_gpus : Nat) :
    ∀ schedule : List Session,
      (∃ s ∈ schedule, s.batch_size % n_gpus ≠ 0) →
      checkBatchSizes schedule n_gpus
        = .error "`batch_size` must be evenly divisible by n_gpus!" := by
  intro schedule
  induction schedule with
  | nil => rintro ⟨s, hs, _⟩; cases hs
  | cons s rest ih =>
      rintro ⟨x, hx, hbad⟩
      by_cases h : s.batch_size % n_gpus = 0
      · rcases List.mem_cons.mp hx with hxs | hxr
        · exact absurd (hxs ▸ h) hbad
        · simp only [checkBatchSizes, h]
          simpa [h] using ih ⟨x, hxr, hbad⟩
      · simp [checkBatchSizes, h]

/-- Claim C8: on an accelerator run (`n_gpus` parallel CUDA devices), every
schedule entry is checked before any training work, and if any entry's
`batch_size` is not evenly divisible by the device count, `train` fails with
the fatal `ValueError` — uniformly in the run configuration, the initial
state and the data, so no training step is ever taken. -/
theorem train_fails_on_indivisible_batch_size (n_gpus : Nat)
    (schedule : List Session) (cfg : Config) (st : TrainState)
    (datasetLen : Nat) (data : Nat → Nat → List Batch) :
    (trainPreamble true n_gpus schedule = .ok ()
        ↔ ∀ s ∈ schedule, s.batch_size % n_gpus = 0)
      ∧ ((∃ s ∈ schedule, s.batch_size % n_gpus ≠ 0) →
          train true n_gpus schedule cfg st datasetLen data
            = .error "`batch_size` must be evenly divisible by n_gpus!") := by
  constructor
  · simpa [trainPreamble] using checkBatchSizes_ok_iff n_gpus schedule
  · intro hbad
    unfold train trainPreamble
    rw [if_pos rfl, checkBatchSizes_error n_gpus schedule hbad]

/-- Witness for claim C8: a single-entry schedule with `batch_size = 5` on two
devices is rejected before training starts, whatever the rest of the run looks
like. -/
theorem train_fails_on_indivisible_batch_size_example :
    (trainPreamble true 2 [⟨7, 1 / 1000, 20000, 5⟩] = .ok ()
        ↔ ∀ s ∈ [(⟨7, 1 / 1000, 20000, 5⟩ : Session)], s.batch_size % 2 = 0)
      ∧ ((∃ s ∈ [(⟨7, 1 / 1000, 20000, 5⟩ : Session)], s.batch_size % 2 ≠ 0) →
          train true 2 [⟨7, 1 / 1000, 20000, 5⟩]
              ⟨"run", "models/run", 0, 0, 0, -1, 1, none⟩
              ⟨0, 0, 0, 0, [], []⟩ 4 (fun _ _ => [])
            = .error "`batch_size` must be evenly divisible by n_gpus!") :=
  train_fails_on_indivisible_batch_size 2 [⟨7, 1 / 1000, 20000, 5⟩]
    ⟨"run", "models/run", 0, 0, 0, -1, 1, none⟩ ⟨0, 0, 0, 0, [], []⟩ 4
    (fun _ _ => [])

/-- Claim C7: the evaluation-interval setting is read by two gates.  The
per-step gate fires exactly at the multiples of a positive interval; the
epoch-boundary gate fires exactly for interval zero; a negative interval
disables both, i.e. evaluation never runs. -/
theorem eval_interval_semantics (interval : Int) (step : Nat) :
    (evalStepGate interval step = true
        ↔ 0 < interval ∧ interval.toNat ∣ step)
      ∧ (evalEpochGate interval = true ↔ interval = 0)
      ∧ (interval < 0 →
          evalStepGate interval step = false ∧ evalEpochGate interval = false) := by
  refine ⟨?_, ?_, ?_⟩
  · simp [evalStepGate, Nat.dvd_iff_mod_eq_zero]
  · simp [evalEpochGate]
  · intro hneg
    constructor
    · simp [evalStepGate, not_lt_of_gt hneg]
    · simp [evalEpochGate]
      omega

/-- A negative interval never fires the per-step gate. -/
theorem evalStepGate_neg {interval : Int} (h : interval < 0) (step : Nat) :
    evalStepGate interval step = false := by
  simp [evalStepGate]
  omega

/-- A negative interval never fires the epoch-boundary gate. -/
theorem evalEpochGate_neg {interval : Int} (h : interval < 0) :
    evalEpochGate interval = false := by
  simp [evalEpochGate]
  omega

/-- When the per-step evaluation gate does not fire, a training-loop iteration
always succeeds: the model's step buffer and the count of optimizer steps each
advance by one, `model.r` and the learning rate are untouched, and the only
possible log line is the NaN warning of the gradient clipping. -/
theorem trainStep_no_eval (cfg : Config) (st : TrainState) (b : Batch)
    (h : evalStepGate cfg.tts_eval_interval (st.step + 1) = false) :
    trainStep cfg st b = .ok
      { step := st.step + 1
        r := st.r
        lr := st.lr
        optSteps := st.optSteps + 1
        saves :=
          (st.saves ++
            (if backupGate cfg.backup_every (st.step + 1) then
              [backupFpath cfg ((st.step + 1) / 1000)] else [])) ++
            (if saveGate cfg.save_every (st.step + 1) then [latestFpath cfg]
              else [])
        logs :=
          match cfg.tts_clip_grad_norm with
          | some _ =>
              if b.nanGrad then st.logs ++ ["grad_norm was NaN!"] else st.logs
          | none => st.logs } := by
  cases hc : cfg.tts_clip_grad_norm with
  | none =>
      by_cases hb : backupGate cfg.backup_every (st.step + 1) <;>
        by_cases hsv : saveGate cfg.save_every (st.step + 1) <;>
          simp [trainStep, hc, hb, hsv, h]
  | some c =>
      by_cases hn : b.nanGrad <;>
        by_cases hb : backupGate cfg.backup_every (st.step + 1) <;>
          by_cases hsv : saveGate cfg.save_every (st.step + 1) <;>
            simp [trainStep, hc, hn, hb, hsv, h]

/-- Claim C3 counterexample: with clipping enabled, a batch whose gradient
norm is NaN is logged — and the optimizer step is taken anyway.  Starting from
`optSteps = 0`, the state after the batch has `optSteps = 1`: the parameters
are updated by that batch, where the claim requires them unchanged
(`optSteps` would have to stay `0`). -/
theorem trainStep_nan_grad_counterexample :
    trainStep ⟨"run", "models/run", 0, 0, 0, -1, 1, some 1⟩ ⟨0, 7, 1, 0, [], []⟩
        ⟨2, true, none⟩
      = .ok ⟨1, 7, 1, 1, [], ["grad_norm was NaN!"]⟩
      ∧ (1 : Nat) ≠ 0 :=
  ⟨rfl, by decide⟩

/-- Claim C3 as amended: a NaN gradient norm during clipping is logged
(`'grad_norm was NaN!'`) and training continues with the next batch rather
than aborting — but the optimizer step is **not** skipped: the parameter
update of that batch is applied (`optSteps` advances). -/
theorem trainStep_nan_grad_logs_but_steps (cfg : Config) (st : TrainState)
    (b : Batch) (hclip : cfg.tts_clip_grad_norm.isSome = true)
    (hnan : b.nanGrad = true) (hneg : cfg.tts_eval_interval < 0) :
    ∃ st2, trainStep cfg st b = .ok st2
      ∧ st2.optSteps = st.optSteps + 1
      ∧ st2.step = st.step + 1
      ∧ st2.logs = st.logs ++ ["grad_norm was NaN!"] := by
  refine ⟨_, trainStep_no_eval cfg st b (evalStepGate_neg hneg _), rfl, rfl, ?_⟩
  obtain ⟨c, hc⟩ := Option.isSome_iff_exists.mp hclip
  simp [hc, hnan]

/-- Witness for the amended claim C3. -/
theorem trainStep_nan_grad_logs_but_steps_example :
    ∃ st2, trainStep ⟨"r3", "m3", 0, 0, 0, -2, 1, some (1 / 2)⟩
          ⟨10, 6, 1, 3, [], []⟩ ⟨1, true, none⟩
        = .ok st2
      ∧ st2.optSteps = 3 + 1
      ∧ st2.step = 10 + 1
      ∧ st2.logs = [] ++ ["grad_norm was NaN!"] :=
  trainStep_nan_grad_logs_but_steps ⟨"r3", "m3", 0, 0, 0, -2, 1, some (1 / 2)⟩
    ⟨10, 6, 1, 3, [], []⟩ ⟨1, true, none⟩ rfl rfl (by decide)

/-- Claim C6 counterexample: with evaluation firing every step
(`tts_eval_interval = 1`), a batch whose diagnostic export raises `IOError`
makes the minibatch loop return that error: the following batch is never
processed and training aborts, where the claim requires the failure to be
recovered locally and the loop to proceed. -/
theorem runEpoch_eval_failure_counterexample :
    runEpoch ⟨"run", "models/run", 0, 0, 0, 1, 1, none⟩ ⟨0, 0, 0, 0, [], []⟩
        [⟨2, false, some "IOError"⟩, ⟨2, false, none⟩]
      = .error "IOError" := rfl

/-- Claim C6 as amended: an exception while exporting the evaluation
diagnostics is not caught anywhere — neither `eval_model` nor its call sites
are wrapped in `try`/`except` — so the training-loop iteration returns the
error and the remaining batches of the epoch are abandoned: training aborts
instead of proceeding. -/
theorem eval_failure_aborts (cfg : Config) (st : TrainState) (b : Batch)
    (bs : List Batch) (e : String)
    (hgate : evalStepGate cfg.tts_eval_interval (st.step + 1) = true)
    (hns : 0 < cfg.tts_eval_num_samples) (hsz : 0 < b.size)
    (herr : b.evalErr = some e) :
    trainStep cfg st b = .error e
      ∧ runEpoch cfg st (b :: bs) = .error e := by
  have h1 : trainStep cfg st b = .error e := by
    cases hc : cfg.tts_clip_grad_norm with
    | none =>
        by_cases hb : backupGate cfg.backup_every (st.step + 1) <;>
          by_cases hsv : saveGate cfg.save_every (st.step + 1) <;>
            simp [trainStep, runEvals, hc, hb, hsv, hgate, hns, hsz, herr]
    | some c =>
        by_cases hn : b.nanGrad <;>
          by_cases hb : backupGate cfg.backup_every (st.step + 1) <;>
            by_cases hsv : saveGate cfg.save_every (st.step + 1) <;>
              simp [trainStep, runEvals, hc, hn, hb, hsv, hgate, hns, hsz, herr]
  exact ⟨h1, by simp [runEpoch, h1]⟩

/-- Witness for the amended claim C6. -/
theorem eval_failure_aborts_example :
    trainStep ⟨"r6", "m6", 0, 0, 0, 2, 1, some 1⟩ ⟨1, 0, 0, 0, [], []⟩
        ⟨3, false, some "disk full"⟩
      = .error "disk full"
      ∧ runEpoch ⟨"r6", "m6", 0, 0, 0, 2, 1, some 1⟩ ⟨1, 0, 0, 0, [], []⟩
          [⟨3, false, some "disk full"⟩, ⟨3, false, none⟩]
        = .error "disk full" :=
  eval_failure_aborts ⟨"r6", "m6", 0, 0, 0, 2, 1, some 1⟩ ⟨1, 0, 0, 0, [], []⟩
    ⟨3, false, some "disk full"⟩ [⟨3, false, none⟩] "disk full"
    (by decide) (by decide) (by decide) rfl

/-- Witness for claim C7: interval 2000 (the shipped default) fires at step
4000; interval 0 fires only at the epoch boundary; the negative interval -1
fires nowhere. -/
theorem eval_interval_semantics_example :
    (evalStepGate 2000 4000 = true ↔ 0 < (2000 : Int) ∧ (2000 : Int).toNat ∣ 4000)
      ∧ (evalEpochGate 0 = true ↔ (0 : Int) = 0)
      ∧ (evalStepGate (-1) 5 = false ∧ evalEpochGate (-1) = false) :=
  ⟨(eval_interval_semantics 2000 4000).1,
    (eval_interval_semantics 0 0).2.1,
    (eval_interval_semantics (-1) 5).2.2 (by decide)⟩

/-- With evaluation disabled, an epoch runs all of its minibatches: the step
buffer and the optimizer-step count advance by the number of batches, and
`model.r` and the learning rate are untouched. -/
theorem runEpoch_no_eval (cfg : Config) (hneg : cfg.tts_eval_interval < 0) :
    ∀ (bs : List Batch) (st : TrainState),
      ∃ st2, runEpoch cfg st bs = .ok st2
        ∧ st2.step = st.step + bs.length
        ∧ st2.optSteps = st.optSteps + bs.length
        ∧ st2.r = st.r ∧ st2.lr = st.lr := by
  intro bs
  induction bs with
  | nil => intro st; exact ⟨st, rfl, by simp, by simp, rfl, rfl⟩
  | cons b t ih =>
      intro st
      have h1 := trainStep_no_eval cfg st b (evalStepGate_neg hneg _)
      obtain ⟨st2, h2, hs2, ho2, hr2, hl2⟩ := ih
        { step := st.step + 1
          r := st.r
          lr := st.lr
          optSteps := st.optSteps + 1
          saves :=
            (st.saves ++
              (if backupGate cfg.backup_every (st.step + 1) then
                [backupFpath cfg ((st.step + 1) / 1000)] else [])) ++
              (if saveGate cfg.save_every (st.step + 1) then [latestFpath cfg]
                else [])
          logs :=
            match cfg.tts_clip_grad_norm with
            | some _ =>
                if b.nanGrad then st.logs ++ ["grad_norm was NaN!"] else st.logs
            | none => st.logs }
      refine ⟨st2, ?_, ?_, ?_, ?_, ?_⟩
      · simp only [runEpoch, h1]; exact h2
      · simp at hs2; simp [hs2]; omega
      · simp at ho2; simp [ho2]; omega
      · simpa using hr2
      · simpa using hl2

/-- With evaluation disabled, the epoch-boundary evaluation does not run
either. -/
theorem runEpochWithEval_no_eval (cfg : Config)
    (hneg : cfg.tts_eval_interval < 0) (bs : List Batch) (st : TrainState) :
    ∃ st2, runEpochWithEval cfg st bs = .ok st2
      ∧ st2.step = st.step + bs.length
      ∧ st2.optSteps = st.optSteps + bs.length
      ∧ st2.r = st.r ∧ st2.lr = st.lr := by
  obtain ⟨st2, h, hs, ho, hr, hl⟩ := runEpoch_no_eval cfg hneg bs st
  exact ⟨st2, by simp [runEpochWithEval, h, evalEpochGate_neg hneg], hs, ho, hr, hl⟩

/-- With evaluation disabled and `B` batches per epoch, `n` epochs advance the
step buffer and the optimizer-step count by `n * B`. -/
theorem runEpochs_no_eval (cfg : Config) (hneg : cfg.tts_eval_interval < 0)
    (B : Nat) :
    ∀ (n : Nat) (st : TrainState) (data : Nat → List Batch),
      (∀ e, (data e).length = B) →
      ∃ st2, runEpochs cfg st data n = .ok st2
        ∧ st2.step = st.step + n * B
        ∧ st2.optSteps = st.optSteps + n * B
        ∧ st2.r = st.r ∧ st2.lr = st.lr := by
  intro n
  induction n with
  | zero => intro st data _; exact ⟨st, rfl, by simp, by simp, rfl, rfl⟩
  | succ m ih =>
      intro st data hlen
      obtain ⟨st1, h1, hs1, ho1, hr1, hl1⟩ :=
        runEpochWithEval_no_eval cfg hneg (data 0) st
      obtain ⟨st2, h2, hs2, ho2, hr2, hl2⟩ :=
        ih st1 (fun e => data (e + 1)) (fun e => hlen (e + 1))
      refine ⟨st2, ?_, ?_, ?_, ?_, ?_⟩
      · simp [runEpochs, h1, h2]
      · rw [hs2, hs1, hlen 0]; ring
      · rw [ho2, ho1, hlen 0]; ring
      · rw [hr2, hr1]
      · rw [hl2, hl1]

/-- Claim C2 counterexample: schedule entry `(r=5, lr=3/10000, max_step=100,
batch_size=2)` entered at step 99 with a 4-element dataset and an overall
budget of `train_steps = 4`: the session runs `4 // 4 + 1 = 2` full epochs of
2 minibatches and ends at step 103 with 4 optimizer steps taken.  The claim
allows at most one optimizer step (the counter reaches `max_step = 100` after
it), so three optimizer steps are taken with the counter at or past
`max_step`. -/
theorem runSession_steps_past_max_step :
    runSession ⟨"run", "models/run", 0, 0, 4, -1, 1, none⟩ ⟨99, 7, 1, 0, [], []⟩
        ⟨5, 3 / 10000, 100, 2⟩ 4
        (fun _ => [⟨2, false, none⟩, ⟨2, false, none⟩])
      = .ok ⟨103, 5, 3 / 10000, 4, [], []⟩
      ∧ (100 : Nat) < 103 ∧ (1 : Nat) < 4 :=
  ⟨rfl, by decide, by decide⟩

/-- Claim C2 as amended: the active session sets the decoder reduction factor
to the entry's `r` and the learning rate to the entry's `lr`, and then
iterates minibatches of the entry's `batch_size` for exactly
`train_steps // len(dataset) + 1` epochs.  `max_step` is not consulted inside
the session: with `B` batches per epoch the counter always advances by
`(train_steps // len(dataset) + 1) * B`, past `max_step` whenever that exceeds
the remaining gap (the schedule is only re-examined at session-selection
time). -/
theorem runSession_sets_r_lr_runs_all_epochs (cfg : Config) (st : TrainState)
    (sess : Session) (datasetLen : Nat) (data : Nat → List Batch) (B : Nat)
    (hdl : 0 < datasetLen) (hneg : cfg.tts_eval_interval < 0)
    (hlen : ∀ e, (data e).length = B) :
    ∃ st2, runSession cfg st sess datasetLen data = .ok st2
      ∧ st2.r = sess.r ∧ st2.lr = sess.lr
      ∧ st2.step = st.step + (cfg.train_steps / datasetLen + 1) * B
      ∧ st2.optSteps = st.optSteps + (cfg.train_steps / datasetLen + 1) * B := by
  obtain ⟨st2, h, hs, ho, hr, hl⟩ :=
    runEpochs_no_eval cfg hneg B (cfg.train_steps / datasetLen + 1)
      { st with r := sess.r, lr := sess.lr } data hlen
  exact ⟨st2, h, by simpa using hr, by simpa using hl, by simpa using hs,
    by simpa using ho⟩

/-- Witness for the amended claim C2: a session with `max_step = 50` entered
at step 0, dataset of 2 items, budget 3, one 3-element batch per epoch: `3 //
2 + 1 = 2` epochs of one batch each run, r and lr are set, and the counter
advances by 2. -/
theorem runSession_sets_r_lr_runs_all_epochs_example :
    ∃ st2, runSession ⟨"rw", "mw", 0, 0, 3, -5, 1, none⟩ ⟨0, 1, 1, 2, [], []⟩
          ⟨4, 1 / 1000, 50, 3⟩ 2 (fun _ => [⟨3, false, none⟩])
        = .ok st2
      ∧ st2.r = 4 ∧ st2.lr = 1 / 1000
      ∧ st2.step = 0 + (3 / 2 + 1) * 1
      ∧ st2.optSteps = 2 + (3 / 2 + 1) * 1 :=
  runSession_sets_r_lr_runs_all_epochs ⟨"rw", "mw", 0, 0, 3, -5, 1, none⟩
    ⟨0, 1, 1, 2, [], []⟩ ⟨4, 1 / 1000, 50, 3⟩ 2 (fun _ => [⟨3, false, none⟩]) 1
    (by decide) (by decide) (fun _ => rfl)

/-- The fuelled digit renderer agrees with `Nat.digits` once the fuel covers
the number. -/
theorem pyDecimalAux_eq_digits :
    ∀ fuel n : Nat, n ≤ fuel →
      pyDecimalAux fuel n
        = (Nat.digits 10 n).map (fun d => Char.ofNat (48 + d)) := by
  intro fuel
  induction fuel with
  | zero =>
      intro n hn
      have : n = 0 := Nat.le_zero.mp hn
      subst this
      simp [pyDecimalAux]
  | succ f ih =>
      intro n hn
      by_cases h0 : n = 0
      · subst h0; simp [pyDecimalAux]
      · have hpos : 0 < n := Nat.pos_of_ne_zero h0
        have hdiv : n / 10 < n := Nat.div_lt_self hpos (by norm_num)
        rw [pyDecimalAux, if_neg h0,
          Nat.digits_def' (by norm_num : (1 : Nat) < 10) hpos, List.map_cons,
          ih (n / 10) (by omega)]

/-- Reading a decimal digit character back gives the digit. -/
theorem dchar_toNat (d : Nat) (h : d < 10) :
    (Char.ofNat (48 + d)).toNat - 48 = d := by
  interval_cases d <;> rfl

/-- Rendering decimal digits as characters is injective on digit lists. -/
theorem map_dchar_injective :
    ∀ l1 l2 : List Nat, (∀ d ∈ l1, d < 10) → (∀ d ∈ l2, d < 10) →
      l1.map (fun d => Char.ofNat (48 + d))
          = l2.map (fun d => Char.ofNat (48 + d)) →
      l1 = l2 := by
  intro l1
  induction l1 with
  | nil =>
      intro l2 _ _ h
      cases l2 with
      | nil => rfl
      | cons b t => simp at h
  | cons a t ih =>
      intro l2 h1 h2 h
      cases l2 with
      | nil => simp at h
      | cons b t2 =>
          simp only [List.map_cons, List.cons.injEq] at h
          obtain ⟨hab, ht⟩ := h
          have ha : a < 10 := h1 a (by simp)
          have hb : b < 10 := h2 b (by simp)
          have hdig : a = b := by
            have := congrArg (fun c : Char => c.toNat - 48) hab
            simpa [dchar_toNat a ha, dchar_toNat b hb] using this
          rw [hdig,
            ih t2 (fun d hd => h1 d (by simp [hd]))
              (fun d hd => h2 d (by simp [hd])) ht]

/-- Python's decimal rendering of a natural number is injective. -/
theorem pyDecimal_injective : Function.Injective pyDecimal := by
  intro a b h
  unfold pyDecimal at h
  have hbound : ∀ n : Nat, ∀ d ∈ Nat.digits 10 n, d < 10 := fun n d hd =>
    Nat.digits_lt_base (by norm_num) hd
  have hzero : ∀ n : Nat, n ≠ 0 →
      (Nat.digits 10 n).map (fun d => Char.ofNat (48 + d)) ≠ ['0'] := by
    intro n hn hmap
    have hd : Nat.digits 10 n = [0] :=
      map_dchar_injective (Nat.digits 10 n) [0] (hbound n)
        (by intro d hd; simp at hd; omega) (by rw [hmap]; rfl)
    have := Nat.ofDigits_digits 10 n
    rw [hd] at this
    simp [Nat.ofDigits] at this
    exact hn this.symm
  by_cases ha : a = 0 <;> by_cases hb : b = 0
  · rw [ha, hb]
  · rw [if_pos ha, if_neg hb, pyDecimalAux_eq_digits b b le_rfl] at h
    have hmap : (Nat.digits 10 b).map (fun d => Char.ofNat (48 + d)) = ['0'] := by
      have := congrArg List.reverse h
      simpa using this.symm
    exact absurd hmap (hzero b hb)
  · rw [if_neg ha, if_pos hb, pyDecimalAux_eq_digits a a le_rfl] at h
    have hmap : (Nat.digits 10 a).map (fun d => Char.ofNat (48 + d)) = ['0'] := by
      have := congrArg List.reverse h
      simpa using this
    exact absurd hmap (hzero a ha)
  · rw [if_neg ha, if_neg hb, pyDecimalAux_eq_digits a a le_rfl,
      pyDecimalAux_eq_digits b b le_rfl] at h
    have := List.reverse_injective h
    have := map_dchar_injective _ _ (hbound a) (hbound b) this
    exact Nat.digits_inj_iff.mp this

/-- The backup path determines and is determined by the thousands tag `k`. -/
theorem backupFpath_inj (cfg : Config) (k1 k2 : Nat)
    (h : backupFpath cfg k1 = backupFpath cfg k2) : k1 = k2 := by
  unfold backupFpath at h
  have hdata := congrArg String.data h
  simp only [String.data_append] at hdata
  have h1 := List.append_cancel_right hdata
  exact pyDecimal_injective (List.append_cancel_left h1)

/-- Claim C5 as amended: a periodic backup checkpoint is written under a
filename tagged with the current step count *in thousands* (`k = step //
1000`), so two backup saves of a run collide exactly when their steps fall in
the same thousand-step block: backups from distinct blocks are never
overwritten, while a later backup in the same block silently overwrites the
earlier one. -/
theorem backupFpath_collision_iff (cfg : Config) (s1 s2 : Nat) :
    backupFpath cfg (s1 / 1000) = backupFpath cfg (s2 / 1000)
      ↔ s1 / 1000 = s2 / 1000 :=
  ⟨fun h => backupFpath_inj cfg (s1 / 1000) (s2 / 1000) h, fun h => by rw [h]⟩

/-- Claim C5 counterexample: with `backup_every = 500`, backup saves trigger
at the distinct steps 1000 and 1500, yet both are written to the very same
file `models/run_1k.pt` — the second save overwrites the first backup
checkpoint. -/
theorem backup_overwrite_same_thousand :
    backupGate 500 1000 = true ∧ backupGate 500 1500 = true
      ∧ (1000 : Nat) ≠ 1500
      ∧ backupFpath ⟨"run", "models", 500, 500, 0, -1, 1, none⟩ (1000 / 1000)
          = backupFpath ⟨"run", "models", 500, 500, 0, -1, 1, none⟩ (1500 / 1000) :=
  ⟨rfl, rfl, by decide, rfl⟩

end Train

end RTVC
